import Mathlib

/-!
Verification of the confession-bot core (`src/main.py`) against its
specification. The Python program keeps its state in an SQLite database
(tables `users`, `confessions`, `comments`, `admins`, `settings`) plus two
in-memory dictionaries (`pending_confessions`, `pending_add_comment`).
We embed that state as a `BotState` record: each table is a list of rows
kept in rowid (= autoincrement id) order, so SQL `ORDER BY id ASC` is the
identity on the representation, and each dictionary is an association list.
Every Python helper and handler that the claims touch is translated to a
pure Lean function on `BotState`; handlers return the new state together
with a result that records which early-return branch was taken.
-/

set_option autoImplicit false

namespace ConfessionBot

universe u v

/-! ### Generic list helpers (executable counterparts of SQL lookups and dict ops) -/

/-- First element satisfying `p` (embeds `cursor.fetchone()` of a `SELECT ... WHERE`). -/
def findFirst {α : Type u} (p : α → Prop) [DecidablePred p] : List α → Option α
  | [] => none
  | x :: xs => if p x then some x else findFirst p xs

/-- Keep the elements satisfying `p` (embeds `DELETE ... WHERE NOT p` complements). -/
def filterP {α : Type u} (p : α → Prop) [DecidablePred p] : List α → List α
  | [] => []
  | x :: xs => if p x then x :: filterP p xs else filterP p xs

/-- Python `dict.get(k)` on an association list. -/
def dictGet {α : Type u} (d : List (Int × α)) (k : Int) : Option α :=
  (findFirst (fun kv => kv.1 = k) d).map (fun kv => kv.2)

/-- Python `dict[k] = v` (key is unique in a dict: drop any old binding). -/
def dictSet {α : Type u} (d : List (Int × α)) (k : Int) (v : α) : List (Int × α) :=
  (k, v) :: filterP (fun kv => kv.1 ≠ k) d

/-- Python `dict.pop(k, None)`. -/
def dictPop {α : Type u} (d : List (Int × α)) (k : Int) : List (Int × α) :=
  filterP (fun kv => kv.1 ≠ k) d

/-! ### Python string primitives used by the handlers -/

/-- Characters of a string with leading and trailing whitespace removed
(Python `str.strip()`). -/
def stripCh (l : List Char) : List Char :=
  ((l.dropWhile Char.isWhitespace).reverse.dropWhile Char.isWhitespace).reverse

/-- Python `str.strip()`. -/
def pyStrip (s : String) : String := ⟨stripCh s.data⟩

/-- Helper for Python `str.split()` (no separator argument): accumulate the
current word (reversed) and split on runs of whitespace, discarding empties. -/
def pySplitAux : List Char → List Char → List (List Char)
  | [], cur => if cur.isEmpty then [] else [cur.reverse]
  | c :: cs, cur =>
    if c.isWhitespace then
      if cur.isEmpty then pySplitAux cs [] else cur.reverse :: pySplitAux cs []
    else pySplitAux cs (c :: cur)

/-- Python `str.split()` with no argument. -/
def pySplit (s : String) : List String :=
  (pySplitAux s.data []).map (fun w => ⟨w⟩)

/-- Python `str.replace("#", "")`: removes every occurrence of `'#'`. -/
def pyReplaceHash (s : String) : String := ⟨s.data.filter (fun c => c ≠ '#')⟩

/-- Python `str.lower()` (only ASCII letters matter for the `/cancel` check). -/
def pyLower (s : String) : String := ⟨s.data.map Char.toLower⟩

/-- Tag parsing of `receive_confession_tags` (src/main.py lines 268-270):
`words = raw.split()[:4]` then
`tags = [w.strip().replace("#", "") for w in words if w.strip()]`,
where `raw = msg.text.strip()`. -/
def parseTags (msgText : String) : List String :=
  let raw := pyStrip msgText
  let words := (pySplit raw).take 4
  (filterP (fun w => pyStrip w ≠ "") words).map (fun w => pyReplaceHash (pyStrip w))

/-- Strip one leading `'#'` from a token (what the spec's words describe). -/
def stripLeadingHash (s : String) : String :=
  if s.data.head? = some '#' then ⟨s.data.tail⟩ else s

/-- Modelled from the spec: tag parsing as the specification words it —
"parses up to 4 whitespace-separated tokens, strips leading `#`, discards
empty tokens". Kept separate from `parseTags` (the code's behaviour) so the
two can be compared. -/
def parseTagsSpec (msgText : String) : List String :=
  let words := (pySplit (pyStrip msgText)).take 4
  filterP (fun t => t ≠ "") (words.map (fun w => stripLeadingHash (pyStrip w)))

/-! ### Comma-joined tag serialization (src/main.py lines 140 and 157) -/

/-- `",".join` at the character level. -/
def joinCommaCh : List (List Char) → List Char
  | [] => []
  | w :: ws =>
    match ws with
    | [] => w
    | _ :: _ => w ++ ',' :: joinCommaCh ws

/-- Python `",".join(tags_list)`. -/
def joinComma (ts : List String) : String := ⟨joinCommaCh (ts.map String.data)⟩

/-- Python `s.split(",")` at the character level, as a pair
(first piece, remaining pieces). -/
def splitCommaP : List Char → List Char × List (List Char)
  | [] => ([], [])
  | c :: cs =>
    let r := splitCommaP cs
    if c = ',' then ([], r.1 :: r.2) else (c :: r.1, r.2)

/-- Python `s.split(",")`: always at least one piece. -/
def splitComma (l : List Char) : List (List Char) :=
  (splitCommaP l).1 :: (splitCommaP l).2

/-- Tag decoding of `get_confession_by_id` (line 157):
`row[3].split(",") if row[3] else []`. -/
def decodeTags (s : String) : List String :=
  if s = "" then [] else (splitComma s.data).map (fun w => ⟨w⟩)

/-! ### Data model: one structure per SQLite table row -/

/-- Row of the `users` table. -/
structure UserRow where
  id : Int
  first_seen : String
deriving DecidableEq

/-- Row of the `confessions` table (`tags` is the comma-separated string
exactly as stored). -/
structure ConfRow where
  id : Int
  user_id : Int
  content : String
  tags : String
  status : String
  created_at : String
deriving DecidableEq

/-- Row of the `comments` table: deliberately no user/author column
(src/main.py lines 55-61). -/
structure CommentRow where
  id : Int
  confession_id : Int
  text : String
  created_at : String
deriving DecidableEq

/-- Row of the `admins` table. -/
structure AdminRow where
  id : Int
  added_by : Int
  added_at : String
deriving DecidableEq

/-- The decoded confession dictionary returned by `get_confession_by_id`. -/
structure ConfView where
  id : Int
  user_id : Int
  content : String
  tags : List String
  status : String
  created_at : String
deriving DecidableEq

/-- Whole program state: the SQLite tables (rows in rowid order, with the
next AUTOINCREMENT value carried explicitly) plus the in-memory dicts and
the out-of-band `MAIN_ADMIN` configuration value. -/
structure BotState where
  mainAdmin : Int
  users : List UserRow
  confessions : List ConfRow
  comments : List CommentRow
  admins : List AdminRow
  settings : List (String × String)
  nextConfId : Int
  nextCommentId : Int
  pending_confessions : List (Int × String)
  pending_add_comment : List (Int × Int)
deriving DecidableEq

/-! ### Repository helpers (src/main.py lines 88-206) -/

/-- `get_setting(key, default)`. -/
def get_setting (st : BotState) (key default : String) : String :=
  match findFirst (fun kv => kv.1 = key) st.settings with
  | some kv => kv.2
  | none => default

/-- `set_setting(key, value)`: `REPLACE INTO settings`. -/
def set_setting (st : BotState) (key value : String) : BotState :=
  { st with settings := (key, value) :: filterP (fun kv => kv.1 ≠ key) st.settings }

/-- `is_auto_approve()`. -/
def is_auto_approve (st : BotState) : Bool :=
  get_setting st "auto_approve" "0" = "1"

/-- `set_auto_approve(on)`. -/
def set_auto_approve (st : BotState) (b : Bool) : BotState :=
  set_setting st "auto_approve" (if b then "1" else "0")

/-- `add_user_if_missing(user_id)`. -/
def add_user_if_missing (st : BotState) (user_id : Int) (now : String) : BotState :=
  if (findFirst (fun u => u.id = user_id) st.users).isSome then st
  else { st with users := st.users ++ [⟨user_id, now⟩] }

/-- `add_secondary_admin(admin_id, added_by)`: `False` when the row exists. -/
def add_secondary_admin (st : BotState) (admin_id added_by : Int) (now : String) :
    BotState × Bool :=
  if (findFirst (fun a => a.id = admin_id) st.admins).isSome then (st, false)
  else ({ st with admins := st.admins ++ [⟨admin_id, added_by, now⟩] }, true)

/-- `remove_secondary_admin(admin_id)`. -/
def remove_secondary_admin (st : BotState) (admin_id : Int) : BotState :=
  { st with admins := filterP (fun a => a.id ≠ admin_id) st.admins }

/-- `is_admin(user_id)` (src/main.py lines 130-134). -/
def is_admin (st : BotState) (user_id : Int) : Bool :=
  user_id = st.mainAdmin || (findFirst (fun a => a.id = user_id) st.admins).isSome

/-- `create_confession(user_id, content, tags_list, status)` returning
`lastrowid` (src/main.py lines 139-146). -/
def create_confession (st : BotState) (user_id : Int) (content : String)
    (tags_list : List String) (status now : String) : BotState × Int :=
  let tags_str := if tags_list.isEmpty then "" else joinComma tags_list
  let conf_id := st.nextConfId
  ({ st with
      confessions := st.confessions ++ [⟨conf_id, user_id, content, tags_str, status, now⟩],
      nextConfId := conf_id + 1 },
   conf_id)

/-- Decoding of a confession row into the dictionary the Python code builds. -/
def confToView (r : ConfRow) : ConfView :=
  ⟨r.id, r.user_id, r.content, decodeTags r.tags, r.status, r.created_at⟩

/-- `get_confession_by_id(conf_id)` (src/main.py lines 148-160). -/
def get_confession_by_id (st : BotState) (conf_id : Int) : Option ConfView :=
  (findFirst (fun r => r.id = conf_id) st.confessions).map confToView

/-- `set_confession_status(conf_id, status)` (src/main.py lines 162-164):
an SQL `UPDATE` touches every row matching the `WHERE` clause. -/
def set_confession_status (st : BotState) (conf_id : Int) (status : String) : BotState :=
  { st with
      confessions :=
        st.confessions.map (fun r => if r.id = conf_id then { r with status := status } else r) }

/-- `add_comment(confession_id, text)` returning `lastrowid`
(src/main.py lines 173-177). -/
def add_comment (st : BotState) (confession_id : Int) (text now : String) : BotState × Int :=
  let cid := st.nextCommentId
  ({ st with
      comments := st.comments ++ [⟨cid, confession_id, text, now⟩],
      nextCommentId := cid + 1 },
   cid)

/-- `get_comments_for_conf(confession_id, limit, offset)` (lines 179-182):
`WHERE confession_id=? ORDER BY id ASC LIMIT ? OFFSET ?`; rows are kept in
id order, so `ORDER BY id ASC` is the identity here, and SQL applies
`OFFSET` before `LIMIT`. -/
def get_comments_for_conf (st : BotState) (confession_id : Int) (limit offset : Nat) :
    List (Int × String × String) :=
  ((((filterP (fun c => c.confession_id = confession_id) st.comments)).map
      (fun c => (c.id, c.text, c.created_at))).drop offset).take limit

/-- `count_comments(confession_id)` (lines 184-186). -/
def count_comments (st : BotState) (confession_id : Int) : Nat :=
  (filterP (fun c => c.confession_id = confession_id) st.comments).length

/-! ### Handler-level operations

Each handler returns the new `BotState` together with an `HOut` that records
which branch was taken: every early-`return`-with-a-message branch of the
Python handler is mapped to the error of the specification's taxonomy that
the spec assigns to that branch. Messaging side effects (sending to
channels/admins) are transport and are not part of the state. -/

/-- Outcome of a handler: the value produced, or the branch taken on early
return. -/
inductive BotErr where
  | validation
  | notFound
  | notAuthorized
  | alreadyDecided
  | noPendingDraft
  | noPendingComment
  | noText
deriving DecidableEq

/-- Handler result. -/
inductive HOut (α : Type) where
  | ok : α → HOut α
  | err : BotErr → HOut α
deriving DecidableEq

/-- `receive_confession_text` (src/main.py lines 246-258), the spec's
`beginDraft`: `text = (msg.text or "").strip()`; empty text is rejected
before any state is touched, otherwise
`pending_confessions[user_id] = {"content": text}`. -/
def receive_confession_text (st : BotState) (user_id : Int) (msg_text : Option String) :
    BotState × HOut Unit :=
  let text := pyStrip (msg_text.getD "")
  if text = "" then (st, .err .validation)
  else ({ st with pending_confessions := dictSet st.pending_confessions user_id text }, .ok ())

/-- `receive_confession_tags` (src/main.py lines 260-313), the spec's
`finalizeTags`: branch order as in the source — missing draft, non-text
message, then tag parsing, `add_user_if_missing`, auto-approve policy,
`create_confession`, and the unconditional `pending_confessions.pop`.
Returns the new confession id. -/
def receive_confession_tags (st : BotState) (user_id : Int) (msg_text : Option String)
    (now : String) : BotState × HOut Int :=
  match dictGet st.pending_confessions user_id with
  | none => (st, .err .noPendingDraft)
  | some content =>
    match msg_text with
    | none => (st, .err .noText)
    | some t =>
      let tags := parseTags t
      let st1 := add_user_if_missing st user_id now
      let auto := is_auto_approve st1
      let status := if auto then "approved" else "pending"
      let res := create_confession st1 user_id content tags status now
      ({ res.1 with pending_confessions := dictPop res.1.pending_confessions user_id },
       .ok res.2)

/-- `handle_skip_tags` (src/main.py lines 316-358): same as the tag step but
with an empty tag list. -/
def handle_skip_tags (st : BotState) (user_id : Int) (now : String) : BotState × HOut Int :=
  match dictGet st.pending_confessions user_id with
  | none => (st, .err .noPendingDraft)
  | some content =>
    let st1 := add_user_if_missing st user_id now
    let auto := is_auto_approve st1
    let status := if auto then "approved" else "pending"
    let res := create_confession st1 user_id content [] status now
    ({ res.1 with pending_confessions := dictPop res.1.pending_confessions user_id },
     .ok res.2)

/-- The `approve` branch of `handle_callback` (src/main.py lines 371-397):
admin check, existence check, then an unconditional
`set_confession_status(conf_id, "approved")` — the source has no check of
the current status. Channel fan-out is transport. -/
def handle_approve (st : BotState) (caller conf_id : Int) : BotState × HOut Unit :=
  if ¬ is_admin st caller then (st, .err .notAuthorized)
  else
    match get_confession_by_id st conf_id with
    | none => (st, .err .notFound)
    | some _ => (set_confession_status st conf_id "approved", .ok ())

/-- The `decline` branch of `handle_callback` (src/main.py lines 371-379 and
398-401): same shape, status set to `"declined"` unconditionally. -/
def handle_decline (st : BotState) (caller conf_id : Int) : BotState × HOut Unit :=
  if ¬ is_admin st caller then (st, .err .notAuthorized)
  else
    match get_confession_by_id st conf_id with
    | none => (st, .err .notFound)
    | some _ => (set_confession_status st conf_id "declined", .ok ())

/-- The spec's `lookupSender`: `prompt_view_sender` only registers
`handle_view_sender` (src/main.py lines 586-601) for a caller that passed
`is_admin`, so the composed operation checks authorization first, then
looks the confession up and returns its `user_id`. -/
def handle_view_sender (st : BotState) (caller conf_id : Int) : BotState × HOut Int :=
  if ¬ is_admin st caller then (st, .err .notAuthorized)
  else
    match get_confession_by_id st conf_id with
    | none => (st, .err .notFound)
    | some conf => (st, .ok conf.user_id)

/-- The spec's `grantAdmin`: `add_admin_prompt` (line 691) fires only for
`m.from_user.id == MAIN_ADMIN`, then `handle_add_admin` (lines 696-708)
reports a no-op for the main admin id and otherwise defers to
`add_secondary_admin`, reporting its boolean. -/
def handle_add_admin (st : BotState) (caller new_id : Int) (now : String) :
    BotState × HOut Bool :=
  if caller ≠ st.mainAdmin then (st, .err .notAuthorized)
  else if new_id = st.mainAdmin then (st, .ok false)
  else
    let res := add_secondary_admin st new_id st.mainAdmin now
    (res.1, .ok res.2)

/-- The spec's `revokeAdmin`: `remove_admin_prompt` (line 710) fires only
for the main admin, then `handle_remove_admin` (lines 715-721) calls
`remove_secondary_admin`. -/
def handle_remove_admin (st : BotState) (caller rid : Int) : BotState × HOut Unit :=
  if caller ≠ st.mainAdmin then (st, .err .notAuthorized)
  else (remove_secondary_admin st rid, .ok ())

/-- The `addcomment` branch of `handle_callback` (src/main.py lines
423-434): existence check, then `pending_add_comment[caller] = conf_id`. -/
def handle_addcomment_button (st : BotState) (caller conf_id : Int) : BotState × HOut Unit :=
  match get_confession_by_id st conf_id with
  | none => (st, .err .notFound)
  | some _ =>
    ({ st with pending_add_comment := dictSet st.pending_add_comment caller conf_id }, .ok ())

/-- `handle_user_comment` (src/main.py lines 495-513): `/cancel` pops the
pending target; `if not conf_id` is Python falsiness, true for both a
missing key and a stored `0`; empty text is rejected; otherwise
`add_comment` runs and the pending target is popped. Returns
`some lastrowid` for a stored comment, `none` for a cancel. -/
def handle_user_comment (st : BotState) (user_id : Int) (msg_text : Option String)
    (now : String) : BotState × HOut (Option Int) :=
  let isCancel : Bool :=
    match msg_text with
    | some t => pyLower (pyStrip t) = "/cancel"
    | none => false
  if isCancel then
    ({ st with pending_add_comment := dictPop st.pending_add_comment user_id }, .ok none)
  else
    match dictGet st.pending_add_comment user_id with
    | none => (st, .err .noPendingComment)
    | some conf_id =>
      if conf_id = 0 then (st, .err .noPendingComment)
      else
        let text := pyStrip (msg_text.getD "")
        if text = "" then (st, .err .validation)
        else
          let res := add_comment st conf_id text now
          ({ res.1 with pending_add_comment := dictPop res.1.pending_add_comment user_id },
           .ok (some res.2))

/-- The `viewpage` branch of `handle_callback` (src/main.py lines 464-492):
`per = 10; offset = page * per`, then `get_comments_for_conf`. This is the
spec's `listComments(confessionId, page, pageSize=10)`. -/
def handle_viewpage (st : BotState) (conf_id : Int) (page : Nat) :
    List (Int × String × String) :=
  get_comments_for_conf st conf_id 10 (page * 10)

/-- One complete comment submission: the `addcomment` button press followed
by the private message with the comment text. -/
def submit_comment_flow (st : BotState) (user conf_id : Int) (text now : String) : BotState :=
  (handle_user_comment (handle_addcomment_button st user conf_id).1 user (some text) now).1

/-- A sequence of comment submissions, each a `(user, text)` pair. -/
def run_comment_flows (conf_id : Int) (now : String) :
    List (Int × String) → BotState → BotState
  | [], st => st
  | (u, t) :: rest, st => run_comment_flows conf_id now rest (submit_comment_flow st u conf_id t now)

/-! ### Concrete states used by witnesses and counterexamples -/

/-- Fresh state: empty tables, autoincrement counters at 1, main admin 7. -/
def baseState : BotState :=
  { mainAdmin := 7, users := [], confessions := [], comments := [], admins := [],
    settings := [], nextConfId := 1, nextCommentId := 1,
    pending_confessions := [], pending_add_comment := [] }

/-- A state holding one confession (id 1) already in the terminal status
`"approved"`. -/
def stApproved : BotState :=
  { baseState with
      confessions := [⟨1, 42, "some text", "", "approved", "t0"⟩],
      nextConfId := 2 }

/-- `baseState` after one confession (id 1, status `"pending"`) is created. -/
def stWithConf : BotState :=
  (create_confession baseState 42 "hello" [] "pending" "t0").1

/-- Insert `n` comments on confession 1 through the repository operation. -/
def addNComments : Nat → BotState → BotState
  | 0, st => st
  | n + 1, st => addNComments n (add_comment st 1 "hi" "t1").1

/-- 25 comments on confession 1 (comment ids 1 to 25). -/
def stComments25 : BotState := addNComments 25 stWithConf

/-- State where user 5 has pressed the comment button for confession 1. -/
def stCommentPending : BotState := { stWithConf with pending_add_comment := [(5, 1)] }

/-- State where user 5 has a confession draft awaiting its tag step. -/
def stDraft : BotState := { baseState with pending_confessions := [(5, "hello")] }

/-- State where user 9 is already a secondary admin. -/
def stWithAdmin : BotState := { baseState with admins := [⟨9, 7, "t0"⟩] }

/-! ### Helper lemmas about the list primitives -/

theorem findFirst_append_of_none {α : Type u} (p : α → Prop) [DecidablePred p]
    (l₁ l₂ : List α) (h : ∀ y ∈ l₁, ¬ p y) :
    findFirst p (l₁ ++ l₂) = findFirst p l₂ := by
  induction l₁ with
  | nil => rfl
  | cons x xs ih =>
    have hx : ¬ p x := h x (List.mem_cons_self x xs)
    simp only [List.cons_append, findFirst, if_neg hx]
    exact ih (fun y hy => h y (List.mem_cons_of_mem x hy))

theorem findFirst_isSome_iff {α : Type u} (p : α → Prop) [DecidablePred p] (l : List α) :
    (findFirst p l).isSome = true ↔ ∃ x ∈ l, p x := by
  induction l with
  | nil => simp [findFirst]
  | cons x xs ih =>
    by_cases hx : p x
    · simp [findFirst, hx]
    · simp [findFirst, hx, ih]

theorem findFirst_filterP {α : Type u} (p q : α → Prop) [DecidablePred p] [DecidablePred q]
    (l : List α) (h : ∀ x, p x → q x) :
    findFirst p (filterP q l) = findFirst p l := by
  induction l with
  | nil => rfl
  | cons x xs ih =>
    by_cases hq : q x
    · by_cases hp : p x
      · simp [filterP, findFirst, hq, hp]
      · simp [filterP, findFirst, hq, hp, ih]
    · have hp : ¬ p x := fun hp => hq (h x hp)
      simp [filterP, findFirst, hq, hp, ih]

theorem findFirst_filterP_none {α : Type u} (p q : α → Prop) [DecidablePred p]
    [DecidablePred q] (l : List α) (h : ∀ x, p x → ¬ q x) :
    findFirst p (filterP q l) = none := by
  induction l with
  | nil => rfl
  | cons x xs ih =>
    by_cases hq : q x
    · have hp : ¬ p x := fun hp => h x hp hq
      simp [filterP, findFirst, hq, hp, ih]
    · simp [filterP, hq, ih]

theorem filterP_eq_self_of {α : Type u} (p : α → Prop) [DecidablePred p] (l : List α)
    (h : ∀ x ∈ l, p x) : filterP p l = l := by
  induction l with
  | nil => rfl
  | cons x xs ih =>
    simp only [filterP, if_pos (h x (List.mem_cons_self x xs))]
    rw [ih (fun y hy => h y (List.mem_cons_of_mem x hy))]

theorem filterP_sublist {α : Type u} (p : α → Prop) [DecidablePred p] (l : List α) :
    List.Sublist (filterP p l) l := by
  induction l with
  | nil => exact List.Sublist.refl []
  | cons x xs ih =>
    by_cases hp : p x
    · simpa [filterP, hp] using ih.cons₂ x
    · simpa [filterP, hp] using ih.cons x

theorem filterP_length_le {α : Type u} (p : α → Prop) [DecidablePred p] (l : List α) :
    (filterP p l).length ≤ l.length :=
  (filterP_sublist p l).length_le

theorem dictGet_dictSet_self {α : Type u} (d : List (Int × α)) (k : Int) (v : α) :
    dictGet (dictSet d k v) k = some v := by
  simp [dictGet, dictSet, findFirst]

theorem dictGet_dictSet_other {α : Type u} (d : List (Int × α)) (k k' : Int) (v : α)
    (h : k' ≠ k) : dictGet (dictSet d k v) k' = dictGet d k' := by
  simp only [dictGet, dictSet, findFirst, if_neg (fun he : k = k' => h he.symm)]
  rw [findFirst_filterP (fun kv => kv.1 = k') (fun kv => kv.1 ≠ k) d
    (fun x hx => show ¬ x.1 = k from fun he => h ((Eq.symm hx).trans he))]

theorem dictGet_dictPop_self {α : Type u} (d : List (Int × α)) (k : Int) :
    dictGet (dictPop d k) k = none := by
  simp only [dictGet, dictPop]
  rw [findFirst_filterP_none (fun kv => kv.1 = k) (fun kv => kv.1 ≠ k) d
    (fun x hx => by simp [hx])]
  rfl

/-! ### Lemmas about Python string splitting and stripping -/

theorem dropWhile_eq_self_of {α : Type u} (p : α → Bool) (l : List α)
    (h : ∀ x ∈ l, ¬ p x = true) : l.dropWhile p = l := by
  cases l with
  | nil => rfl
  | cons x xs =>
    have hx : p x = false := by
      have h' := h x (List.mem_cons_self x xs)
      revert h'; cases p x <;> simp
    simp [List.dropWhile, hx]

theorem stripCh_eq_self (l : List Char) (h : ∀ c ∈ l, ¬ c.isWhitespace = true) :
    stripCh l = l := by
  unfold stripCh
  rw [dropWhile_eq_self_of _ l h,
    dropWhile_eq_self_of _ l.reverse (fun c hc => h c (List.mem_reverse.mp hc)),
    List.reverse_reverse]

theorem pySplitAux_words (cs : List Char) :
    ∀ cur : List Char, (∀ c ∈ cur, ¬ c.isWhitespace = true) →
      ∀ w ∈ pySplitAux cs cur, w ≠ [] ∧ ∀ c ∈ w, ¬ c.isWhitespace = true := by
  induction cs with
  | nil =>
    intro cur hcur w hw
    by_cases hc : cur.isEmpty
    · simp [pySplitAux, hc] at hw
    · simp only [pySplitAux, if_neg hc, List.mem_singleton] at hw
      subst hw
      refine ⟨?_, fun c hc' => hcur c (List.mem_reverse.mp hc')⟩
      simp only [ne_eq, List.reverse_eq_nil_iff]
      exact fun he => hc (by simp [he])
  | cons c cs ih =>
    intro cur hcur w hw
    by_cases hws : c.isWhitespace
    · by_cases hc : cur.isEmpty
      · simp only [pySplitAux, hws, if_pos hc, if_true] at hw
        exact ih [] (by simp) w hw
      · simp only [pySplitAux, hws, if_true, if_neg hc, List.mem_cons] at hw
        rcases hw with hw | hw
        · subst hw
          refine ⟨?_, fun c' hc' => hcur c' (List.mem_reverse.mp hc')⟩
          simp only [ne_eq, List.reverse_eq_nil_iff]
          exact fun he => hc (by simp [he])
        · exact ih [] (by simp) w hw
    · simp only [pySplitAux, hws, if_false] at hw
      refine ih (c :: cur) ?_ w hw
      intro c' hc'
      rcases List.mem_cons.mp hc' with h' | h'
      · subst h'; exact hws
      · exact hcur c' h'

theorem pySplit_words (s : String) :
    ∀ w ∈ pySplit s, w ≠ "" ∧ ∀ c ∈ w.data, ¬ c.isWhitespace = true := by
  intro w hw
  simp only [pySplit, List.mem_map] at hw
  obtain ⟨wch, hmem, rfl⟩ := hw
  obtain ⟨hne, hchars⟩ := pySplitAux_words s.data [] (by simp) wch hmem
  exact ⟨fun he => hne (congrArg String.data he), hchars⟩

/-- The `if w.strip()` filter and the inner `w.strip()` in the tag
comprehension are both the identity: `str.split()` only produces non-empty,
whitespace-free words. So the code's tag parse is exactly
"take 4 words, delete every `'#'`". -/
theorem parseTags_characterization (msgText : String) :
    parseTags msgText = ((pySplit (pyStrip msgText)).take 4).map pyReplaceHash := by
  have hdef : parseTags msgText
      = (filterP (fun w => pyStrip w ≠ "") ((pySplit (pyStrip msgText)).take 4)).map
          (fun w => pyReplaceHash (pyStrip w)) := rfl
  rw [hdef]
  have hwords : ∀ w ∈ (pySplit (pyStrip msgText)).take 4,
      w ≠ "" ∧ ∀ c ∈ w.data, ¬ c.isWhitespace = true :=
    fun w hw => pySplit_words _ w (List.take_subset 4 _ hw)
  have hstrip : ∀ w ∈ (pySplit (pyStrip msgText)).take 4, pyStrip w = w := by
    intro w hw
    have := (hwords w hw).2
    show (⟨stripCh w.data⟩ : String) = w
    rw [stripCh_eq_self w.data this]
  rw [filterP_eq_self_of _ _ (fun w hw => by rw [hstrip w hw]; exact (hwords w hw).1)]
  exact List.map_congr_left (fun w hw => by rw [hstrip w hw])

theorem pyReplaceHash_no_hash (s : String) : '#' ∉ (pyReplaceHash s).data := by
  simp [pyReplaceHash]

/-! ### Lemmas about confession rows and status updates -/

theorem findFirst_setStatus (l : List ConfRow) (cid : Int) (s : String) :
    findFirst (fun r => r.id = cid)
        (l.map (fun r => if r.id = cid then { r with status := s } else r))
      = (findFirst (fun r => r.id = cid) l).map
          (fun r => { r with status := s }) := by
  induction l with
  | nil => rfl
  | cons r rs ih =>
    by_cases h : r.id = cid
    · simp [findFirst, h, ih]
    · simp [findFirst, h, ih]

theorem get_after_set_status (st : BotState) (cid : Int) (s : String) :
    get_confession_by_id (set_confession_status st cid s) cid
      = (get_confession_by_id st cid).map (fun v => { v with status := s }) := by
  unfold get_confession_by_id set_confession_status
  simp only [findFirst_setStatus]
  cases findFirst (fun r => r.id = cid) st.confessions with
  | none => rfl
  | some r => rfl

theorem add_user_preserves (st : BotState) (u : Int) (now : String) :
    (add_user_if_missing st u now).settings = st.settings ∧
    (add_user_if_missing st u now).confessions = st.confessions ∧
    (add_user_if_missing st u now).nextConfId = st.nextConfId ∧
    (add_user_if_missing st u now).comments = st.comments ∧
    (add_user_if_missing st u now).pending_confessions = st.pending_confessions := by
  unfold add_user_if_missing
  by_cases h : (findFirst (fun r => r.id = u) st.users).isSome
  · simp [h]
  · simp [h]

/-! ### Lemmas about the comma-joined tag encoding -/

theorem splitCommaP_no_comma (w : List Char) (h : ',' ∉ w) : splitCommaP w = (w, []) := by
  induction w with
  | nil => rfl
  | cons c cs ih =>
    have hc : ¬ c = ',' := fun he => h (he ▸ List.mem_cons_self c cs)
    simp [splitCommaP, hc, ih (fun hm => h (List.mem_cons_of_mem c hm))]

theorem splitCommaP_append (w rest : List Char) (h : ',' ∉ w) :
    splitCommaP (w ++ ',' :: rest) = (w, splitComma rest) := by
  induction w with
  | nil => simp [splitCommaP, splitComma]
  | cons c cs ih =>
    have hc : ¬ c = ',' := fun he => h (he ▸ List.mem_cons_self c cs)
    simp [splitCommaP, hc, ih (fun hm => h (List.mem_cons_of_mem c hm))]

theorem splitComma_joinCommaCh : ∀ ts : List (List Char), ts ≠ [] →
    (∀ w ∈ ts, ',' ∉ w) → splitComma (joinCommaCh ts) = ts := by
  intro ts
  induction ts with
  | nil => intro h; exact absurd rfl h
  | cons w ws ih =>
    intro _ hall
    have hw : ',' ∉ w := hall w (List.mem_cons_self _ _)
    cases ws with
    | nil => simp [joinCommaCh, splitComma, splitCommaP_no_comma w hw]
    | cons w2 ws2 =>
      have hjoin : joinCommaCh (w :: w2 :: ws2) = w ++ ',' :: joinCommaCh (w2 :: ws2) := rfl
      have ih' := ih (by simp) (fun x hx => hall x (List.mem_cons_of_mem w hx))
      unfold splitComma
      rw [hjoin, splitCommaP_append w _ hw]
      simpa [splitComma] using ih'

theorem joinCommaCh_ne_nil (w : List Char) (ws : List (List Char)) (hw : w ≠ []) :
    joinCommaCh (w :: ws) ≠ [] := by
  cases ws with
  | nil => simpa [joinCommaCh] using hw
  | cons w2 ws2 => simp [joinCommaCh]

/-- Round trip of the encoding: decoding a comma-join of non-empty,
comma-free tokens recovers the tokens. -/
theorem decodeTags_joinComma (ts : List String) (hne : ts ≠ [])
    (h : ∀ t ∈ ts, t ≠ "" ∧ ',' ∉ t.data) :
    decodeTags (joinComma ts) = ts := by
  obtain ⟨t0, ts', rfl⟩ := List.exists_cons_of_ne_nil hne
  have ht0 : t0.data ≠ [] := by
    intro he
    exact (h t0 (List.mem_cons_self _ _)).1 (by
      have : t0 = ⟨t0.data⟩ := rfl
      rw [this, he])
  have hdata : (joinComma (t0 :: ts')).data = joinCommaCh ((t0 :: ts').map String.data) := rfl
  have hnn : (joinComma (t0 :: ts')).data ≠ [] := by
    rw [hdata]
    exact joinCommaCh_ne_nil t0.data (ts'.map String.data) ht0
  have hne' : joinComma (t0 :: ts') ≠ "" := by
    intro he
    exact hnn (congrArg String.data he)
  unfold decodeTags
  rw [if_neg hne', hdata,
    splitComma_joinCommaCh ((t0 :: ts').map String.data) (by simp)
      (fun w hw => by
        obtain ⟨t, ht, rfl⟩ := List.mem_map.mp hw
        exact (h t ht).2)]
  rw [List.map_map]
  exact List.map_congr_left (fun t _ => rfl) |>.trans (List.map_id _)

/-- `get_confession_by_id` right after `create_confession` returns the new
row (for a state whose existing rows do not collide with the fresh id). -/
theorem get_after_create (st : BotState) (uid : Int) (content : String)
    (ts : List String) (status now : String)
    (hfresh : ∀ r ∈ st.confessions, r.id ≠ st.nextConfId) :
    get_confession_by_id (create_confession st uid content ts status now).1
        (create_confession st uid content ts status now).2
      = some ⟨st.nextConfId, uid, content,
          decodeTags (if ts.isEmpty then "" else joinComma ts), status, now⟩ := by
  unfold create_confession get_confession_by_id
  simp only
  rw [findFirst_append_of_none _ _ _ hfresh]
  simp [findFirst, confToView]

/-! ### Congruence lemmas: which state fields an operation reads -/

theorem is_auto_approve_congr (st1 st2 : BotState) (h : st1.settings = st2.settings) :
    is_auto_approve st1 = is_auto_approve st2 := by
  unfold is_auto_approve get_setting
  rw [h]

theorem get_confession_congr (st1 st2 : BotState) (cid : Int)
    (h : st1.confessions = st2.confessions) :
    get_confession_by_id st1 cid = get_confession_by_id st2 cid := by
  unfold get_confession_by_id
  rw [h]

theorem get_comments_congr (st1 st2 : BotState) (cid : Int) (l o : Nat)
    (h : st1.comments = st2.comments) :
    get_comments_for_conf st1 cid l o = get_comments_for_conf st2 cid l o := by
  unfold get_comments_for_conf
  rw [h]

theorem count_comments_congr (st1 st2 : BotState) (cid : Int)
    (h : st1.comments = st2.comments) :
    count_comments st1 cid = count_comments st2 cid := by
  unfold count_comments
  rw [h]

/-! ### Claims -/

/-- C1, counterexample: in `stApproved` confession 1 already has the
terminal status `"approved"` (so it is not pending), yet `decline` called
by the main admin does not fail with `AlreadyDecidedError` — it succeeds
and overwrites the stored status with `"declined"`. This refutes the claim
that approve/decline on a non-pending confession fail and leave the status
unchanged. -/
theorem C1_counterexample :
    (get_confession_by_id stApproved 1).map ConfView.status = some "approved" ∧
    (handle_decline stApproved 7 1).2 = .ok () ∧
    (get_confession_by_id (handle_decline stApproved 7 1).1 1).map ConfView.status
      = some "declined" := by decide

/-- C1 (amended): `handle_callback` performs no check of the current
status: for every existing confession, approve by an admin succeeds and
unconditionally stores status `"approved"`, and decline succeeds and
unconditionally stores `"declined"`, whatever the prior status was; a
second decision therefore succeeds and can move a confession between the
two terminal statuses. -/
theorem C1_theorem : ∀ (st : BotState) (caller conf_id : Int) (c : ConfView),
    is_admin st caller = true →
    get_confession_by_id st conf_id = some c →
    ((handle_approve st caller conf_id).2 = .ok () ∧
      (get_confession_by_id (handle_approve st caller conf_id).1 conf_id).map ConfView.status
        = some "approved") ∧
    ((handle_decline st caller conf_id).2 = .ok () ∧
      (get_confession_by_id (handle_decline st caller conf_id).1 conf_id).map ConfView.status
        = some "declined") := by
  intro st caller conf_id c hadm hget
  have hadm' : ¬ is_admin st caller = true → False := fun h => h hadm
  constructor
  · constructor
    · simp [handle_approve, hadm, hget]
    · simp only [handle_approve, hadm, not_true, if_false, hget]
      rw [get_after_set_status, hget]
      rfl
  · constructor
    · simp [handle_decline, hadm, hget]
    · simp only [handle_decline, hadm, not_true, if_false, hget]
      rw [get_after_set_status, hget]
      rfl

/-- C1 witness: the amended claim applied to `stApproved`, whose confession
1 is already `"approved"`: a (second) decline still succeeds and stores
`"declined"`. -/
theorem C1_witness :
    (handle_decline stApproved 7 1).2 = .ok () ∧
    (get_confession_by_id (handle_decline stApproved 7 1).1 1).map ConfView.status
      = some "declined" :=
  (C1_theorem stApproved 7 1 ⟨1, 42, "some text", [], "approved", "t0"⟩
    (by decide) (by decide)).2

/-- C3, counterexample: the claim describes tag parsing as "strip a leading
`'#'`, discard empty tokens" (`parseTagsSpec`); the code deletes every
`'#'` and keeps a token whose raw text was non-blank even when `'#'`
removal empties it. On input `"# a#b"` the code stores `["", "ab"]` while
the claimed parse yields `["a#b"]`. -/
theorem C3_counterexample :
    parseTags "# a#b" = ["", "ab"] ∧
    parseTagsSpec "# a#b" = ["a#b"] ∧
    parseTags "# a#b" ≠ parseTagsSpec "# a#b" := by decide

/-- C3 (amended): `finalizeTags` parses at most 4 whitespace-separated
tokens (whitespace splitting yields no empty tokens, and the keep-test runs
on the raw token before `'#'` removal, so every parsed token is kept — a
token of only `'#'`s is stored as an empty tag), deletes every `'#'`
character of each token (not only a leading one), and silently drops tokens
beyond the fourth; input `"a b c d e"` stores exactly `["a","b","c","d"]`
and `"#x #y"` stores exactly `["x","y"]`. -/
theorem C3_theorem : ∀ raw : String,
    parseTags raw = ((pySplit (pyStrip raw)).take 4).map pyReplaceHash ∧
    (parseTags raw).length ≤ 4 ∧
    (∀ t ∈ parseTags raw, '#' ∉ t.data) ∧
    parseTags "a b c d e" = ["a", "b", "c", "d"] ∧
    parseTags "#x #y" = ["x", "y"] := by
  intro raw
  refine ⟨parseTags_characterization raw, ?_, ?_, by decide, by decide⟩
  · rw [parseTags_characterization raw, List.length_map]
    exact (List.length_take 4 _) ▸ Nat.min_le_left 4 _
  · intro t ht
    rw [parseTags_characterization raw] at ht
    obtain ⟨w, _, rfl⟩ := List.mem_map.mp ht
    exact pyReplaceHash_no_hash w

/-- C3 witness: the amended claim evaluated at `"# a#b"`: the second token
`"a#b"` is stored as `"ab"`, which indeed contains no `'#'`. -/
theorem C3_witness :
    parseTags "a b c d e" = ["a", "b", "c", "d"] ∧ '#' ∉ ("ab" : String).data :=
  ⟨( C3_theorem "a b c d e").2.2.2.1, ( C3_theorem "# a#b").2.2.1 "ab" (by decide)⟩

/-- C2: `is_admin` holds exactly for the main admin and the members of the
`admins` table; approve, decline and sender lookup invoked by a non-admin
fail with `NotAuthorizedError` leaving the state untouched; adding or
removing an admin invoked by anyone but the main admin (secondary admins
included) fails the same way. -/
theorem C2_theorem : ∀ (st : BotState) (u conf_id new_id rid : Int) (now : String),
    (is_admin st u = true ↔ (u = st.mainAdmin ∨ ∃ a ∈ st.admins, a.id = u)) ∧
    (is_admin st u = false →
      handle_approve st u conf_id = (st, .err .notAuthorized) ∧
      handle_decline st u conf_id = (st, .err .notAuthorized) ∧
      handle_view_sender st u conf_id = (st, .err .notAuthorized)) ∧
    (u ≠ st.mainAdmin →
      handle_add_admin st u new_id now = (st, .err .notAuthorized) ∧
      handle_remove_admin st u rid = (st, .err .notAuthorized)) := by
  intro st u conf_id new_id rid now
  refine ⟨?_, ?_, ?_⟩
  · simp [is_admin, findFirst_isSome_iff]
  · intro h
    have h' : ¬ is_admin st u = true := by simp [h]
    exact ⟨by simp [handle_approve, h'], by simp [handle_decline, h'],
      by simp [handle_view_sender, h']⟩
  · intro h
    exact ⟨by simp [handle_add_admin, h], by simp [handle_remove_admin, h]⟩

/-- C2 witness: user 5 is no admin in `baseState`; approve and
admin-granting by user 5 are rejected without state change. -/
theorem C2_witness :
    is_admin baseState 5 = false ∧
    handle_approve baseState 5 1 = (baseState, .err .notAuthorized) ∧
    handle_add_admin baseState 5 9 "t" = (baseState, .err .notAuthorized) :=
  ⟨by decide, ((C2_theorem baseState 5 1 9 0 "t").2.1 (by decide)).1,
    ((C2_theorem baseState 5 1 9 0 "t").2.2 (by decide)).1⟩

/-- C4: the comment-button handler fails with `NotFoundError` and stores
nothing when the confession does not exist; the comment-text handler fails
with `ValidationError` and stores nothing when the text is empty after
trimming; on success it appends exactly one comment row carrying the fresh
autoincrement id and returns that id. -/
theorem C4_theorem : ∀ (st : BotState) (caller u conf_id c : Int) (t now : String),
    (get_confession_by_id st conf_id = none →
      handle_addcomment_button st caller conf_id = (st, .err .notFound)) ∧
    (dictGet st.pending_add_comment u = some c → c ≠ 0 →
      pyLower (pyStrip t) ≠ "/cancel" → pyStrip t = "" →
      handle_user_comment st u (some t) now = (st, .err .validation)) ∧
    (dictGet st.pending_add_comment u = some c → c ≠ 0 →
      pyLower (pyStrip t) ≠ "/cancel" → pyStrip t ≠ "" →
      ((handle_user_comment st u (some t) now).2 = .ok (some st.nextCommentId) ∧
        (handle_user_comment st u (some t) now).1.comments
          = st.comments ++ [⟨st.nextCommentId, c, pyStrip t, now⟩] ∧
        ((∀ r ∈ st.comments, r.id < st.nextCommentId) →
          ∀ r ∈ st.comments, r.id ≠ st.nextCommentId))) := by
  intro st caller u conf_id c t now
  refine ⟨?_, ?_, ?_⟩
  · intro h
    simp [handle_addcomment_button, h]
  · intro hpend hc0 hcancel hempty
    have hnc : ¬ pyLower "" = "/cancel" := by decide
    simp [handle_user_comment, hcancel, hpend, hc0, hempty, hnc]
  · intro hpend hc0 hcancel hempty
    refine ⟨?_, ?_, fun hlt r hr he => absurd (he ▸ hlt r hr) (lt_irrefl _)⟩
    · simp [handle_user_comment, hcancel, hpend, hc0, hempty, add_comment]
    · simp [handle_user_comment, hcancel, hpend, hc0, hempty, add_comment]

/-- C4 witness: in `stCommentPending` (confession 1 exists, user 5 has a
pending comment target) an empty comment is rejected without change, a
non-empty comment is appended with the fresh id 1; a button press for the
missing confession 2 fails with not-found. -/
theorem C4_witness :
    handle_addcomment_button stWithConf 5 2 = (stWithConf, .err .notFound) ∧
    handle_user_comment stCommentPending 5 (some "  ") "t2" = (stCommentPending, .err .validation) ∧
    (handle_user_comment stCommentPending 5 (some "nice") "t2").1.comments
      = stCommentPending.comments ++ [⟨1, 1, "nice", "t2"⟩] :=
  ⟨(C4_theorem stWithConf 5 5 2 1 "x" "t2").1 (by decide),
    (C4_theorem stCommentPending 5 5 2 1 "  " "t2").2.1 (by decide) (by decide)
      (by decide) (by decide),
    ((C4_theorem stCommentPending 5 5 2 1 "nice" "t2").2.2 (by decide) (by decide)
      (by decide) (by decide)).2.1⟩

/-- The comment flow's effect on the durable fields is independent of the
acting user: for an existing confession, one button-press-then-text step
either leaves `comments` unchanged (cancel or blank text) or appends the
one row `(nextCommentId, conf_id, strippedText, now)` — no field of the
row, and no branch condition, mentions the user. -/
theorem submit_flow_fields (st : BotState) (u conf_id : Int) (t now : String)
    (hconf : (findFirst (fun r => r.id = conf_id) st.confessions).isSome = true)
    (hc0 : conf_id ≠ 0) :
    (submit_comment_flow st u conf_id t now).comments
      = (if pyLower (pyStrip t) = "/cancel" ∨ pyStrip t = "" then st.comments
          else st.comments ++ [⟨st.nextCommentId, conf_id, pyStrip t, now⟩]) ∧
    (submit_comment_flow st u conf_id t now).confessions = st.confessions ∧
    (submit_comment_flow st u conf_id t now).nextCommentId
      = (if pyLower (pyStrip t) = "/cancel" ∨ pyStrip t = "" then st.nextCommentId
          else st.nextCommentId + 1) := by
  obtain ⟨row, hrow⟩ := Option.isSome_iff_exists.mp hconf
  have hget : get_confession_by_id st conf_id = some (confToView row) := by
    unfold get_confession_by_id
    rw [hrow]
    rfl
  unfold submit_comment_flow
  simp only [handle_addcomment_button, hget]
  by_cases hcan : pyLower (pyStrip t) = "/cancel"
  · simp [handle_user_comment, hcan]
  · by_cases hemp : pyStrip t = ""
    · have hnc : ¬ pyLower "" = "/cancel" := by decide
      simp [handle_user_comment, hcan, hemp, dictGet_dictSet_self, hc0, hnc]
    · simp [handle_user_comment, hcan, hemp, dictGet_dictSet_self, hc0, add_comment]

/-- Two comment-flow sequences with the same texts against the same
existing confession leave identical `comments` tables, whoever the acting
users were. -/
theorem run_flows_user_blind (conf_id : Int) (now : String) :
    ∀ (subs1 subs2 : List (Int × String)) (st1 st2 : BotState),
      subs1.map Prod.snd = subs2.map Prod.snd →
      (findFirst (fun r => r.id = conf_id) st1.confessions).isSome = true →
      conf_id ≠ 0 →
      st1.comments = st2.comments → st1.confessions = st2.confessions →
      st1.nextCommentId = st2.nextCommentId →
      (run_comment_flows conf_id now subs1 st1).comments
        = (run_comment_flows conf_id now subs2 st2).comments := by
  intro subs1
  induction subs1 with
  | nil =>
    intro subs2 st1 st2 hmap _ _ hcom _ _
    cases subs2 with
    | nil => exact hcom
    | cons q qs => simp at hmap
  | cons p rest ih =>
    intro subs2 st1 st2 hmap hconf hc0 hcom hconfs hnext
    cases subs2 with
    | nil => simp at hmap
    | cons q rest2 =>
      obtain ⟨u1, t⟩ := p
      obtain ⟨u2, t2⟩ := q
      simp only [List.map_cons, List.cons.injEq] at hmap
      obtain ⟨hts, hrest⟩ := hmap
      cases hts
      have hconf2 : (findFirst (fun r => r.id = conf_id) st2.confessions).isSome = true := by
        rw [← hconfs]; exact hconf
      have hf1 := submit_flow_fields st1 u1 conf_id t now hconf hc0
      have hf2 := submit_flow_fields st2 u2 conf_id t now hconf2 hc0
      refine ih rest2 _ _ hrest ?_ hc0 ?_ ?_ ?_
      · rw [hf1.2.1]; exact hconf
      · rw [hf1.1, hf2.1, hcom, hnext]
      · rw [hf1.2.1, hf2.2.1]; exact hconfs
      · rw [hf1.2.2, hf2.2.2, hnext]

/-- C5: comments are anonymous. The `comments` row type stores no user
identifier; `get_comments_for_conf` reads nothing but the `comments` table;
and any two comment-submission runs against an existing confession that
differ only in which users submitted produce identical stored comment rows,
identical `listComments` pages and identical counts. -/
theorem C5_theorem : ∀ (st : BotState) (conf_id : Int) (now : String)
    (subs1 subs2 : List (Int × String)) (limit offset : Nat),
    (findFirst (fun r => r.id = conf_id) st.confessions).isSome = true →
    conf_id ≠ 0 →
    subs1.map Prod.snd = subs2.map Prod.snd →
    (run_comment_flows conf_id now subs1 st).comments
      = (run_comment_flows conf_id now subs2 st).comments ∧
    get_comments_for_conf (run_comment_flows conf_id now subs1 st) conf_id limit offset
      = get_comments_for_conf (run_comment_flows conf_id now subs2 st) conf_id limit offset ∧
    count_comments (run_comment_flows conf_id now subs1 st) conf_id
      = count_comments (run_comment_flows conf_id now subs2 st) conf_id := by
  intro st conf_id now subs1 subs2 limit offset hconf hc0 hmap
  have h := run_flows_user_blind conf_id now subs1 subs2 st st hmap hconf hc0 rfl rfl rfl
  exact ⟨h, get_comments_congr _ _ _ _ _ h, count_comments_congr _ _ _ h⟩

/-- C5 witness: users 5 and 6 versus users 8 and 9 submitting the same two
comment texts on confession 1 leave identical comment tables and pages. -/
theorem C5_witness :
    (run_comment_flows 1 "t1" [(5, "a"), (6, "b")] stWithConf).comments
      = (run_comment_flows 1 "t1" [(8, "a"), (9, "b")] stWithConf).comments ∧
    get_comments_for_conf (run_comment_flows 1 "t1" [(5, "a"), (6, "b")] stWithConf) 1 10 0
      = get_comments_for_conf (run_comment_flows 1 "t1" [(8, "a"), (9, "b")] stWithConf) 1 10 0 :=
  ⟨(C5_theorem stWithConf 1 "t1" [(5, "a"), (6, "b")] [(8, "a"), (9, "b")] 10 0
      (by decide) (by decide) (by decide)).1,
    (C5_theorem stWithConf 1 "t1" [(5, "a"), (6, "b")] [(8, "a"), (9, "b")] 10 0
      (by decide) (by decide) (by decide)).2.1⟩

/-- `findFirst` over an append whose left part misses the id and whose
appended row carries it. -/
theorem findFirst_append_singleton (l : List ConfRow) (row : ConfRow) (cid : Int)
    (hfresh : ∀ r ∈ l, r.id ≠ cid) (hrow : row.id = cid) :
    findFirst (fun r => r.id = cid) (l ++ [row]) = some row := by
  rw [findFirst_append_of_none _ _ _ hfresh]
  simp [findFirst, hrow]

/-- Field-level description of a successful `receive_confession_tags` call:
it returns the fresh confession id, appends exactly one confession row
whose status is governed by the auto-approve setting, and drops the
caller's draft. -/
theorem receive_tags_fields (st : BotState) (u : Int) (raw now content : String)
    (hdraft : dictGet st.pending_confessions u = some content) :
    (receive_confession_tags st u (some raw) now).2 = .ok st.nextConfId ∧
    (receive_confession_tags st u (some raw) now).1.confessions
      = st.confessions ++ [⟨st.nextConfId, u, content,
          (if (parseTags raw).isEmpty then "" else joinComma (parseTags raw)),
          (if is_auto_approve st then "approved" else "pending"), now⟩] ∧
    dictGet (receive_confession_tags st u (some raw) now).1.pending_confessions u = none := by
  have hpres := add_user_preserves st u now
  have hauto : is_auto_approve (add_user_if_missing st u now) = is_auto_approve st :=
    is_auto_approve_congr _ _ hpres.1
  unfold receive_confession_tags
  rw [hdraft]
  refine ⟨?_, ?_, ?_⟩
  · simp only [create_confession]
    rw [hpres.2.2.1]
  · simp only [create_confession]
    rw [hpres.2.1, hpres.2.2.1, hauto]
  · simp only [create_confession]
    exact dictGet_dictPop_self _ _

/-- C6: `viewpage` pagination with page size 10: a page past the end of a
confession's comments is the empty sequence (not an error); when the stored
comment ids are ascending, every returned page is ascending in id; and for
the concrete state with 25 comments on confession 1, page 0 returns
comments 1-10 in ascending id order, page 2 returns 21-25, and page 3
returns the empty sequence. -/
theorem C6_theorem : ∀ (st : BotState) (conf_id : Int) (page : Nat),
    (count_comments st conf_id ≤ page * 10 → handle_viewpage st conf_id page = []) ∧
    ((st.comments.map CommentRow.id).Pairwise (fun a b => a < b) →
      ((handle_viewpage st conf_id page).map Prod.fst).Pairwise (fun a b => a < b)) ∧
    (count_comments stComments25 1 = 25 ∧
      (handle_viewpage stComments25 1 0).map Prod.fst = [1,2,3,4,5,6,7,8,9,10] ∧
      (handle_viewpage stComments25 1 2).map Prod.fst = [21,22,23,24,25] ∧
      handle_viewpage stComments25 1 3 = []) := by
  intro st conf_id page
  refine ⟨?_, ?_, by decide, by decide, by decide, by decide⟩
  · intro hcount
    unfold handle_viewpage get_comments_for_conf
    rw [List.drop_eq_nil_of_le (by
      rw [List.length_map]
      exact hcount)]
    rfl
  · intro hpair
    have h1 : (handle_viewpage st conf_id page).map Prod.fst
        = (((filterP (fun c => c.confession_id = conf_id) st.comments).map
            CommentRow.id).drop (page * 10)).take 10 := by
      unfold handle_viewpage get_comments_for_conf
      rw [List.map_take, List.map_drop, List.map_map]
      rfl
    rw [h1]
    refine List.Pairwise.sublist ?_ hpair
    exact ((List.take_sublist _ _).trans (List.drop_sublist _ _)).trans
      ((filterP_sublist _ _).map CommentRow.id)

/-- C6 witness: page 3 of the 25-comment state is empty (its count 25 is at
most 30), and page 0 is ascending in id. -/
theorem C6_witness :
    handle_viewpage stComments25 1 3 = [] ∧
    ((handle_viewpage stComments25 1 0).map Prod.fst).Pairwise (fun a b => a < b) :=
  ⟨(C6_theorem stComments25 1 3).1 (by decide),
    (C6_theorem stComments25 1 0).2.1 (by decide)⟩

/-- C7: with auto-approve off a finalized confession is stored with status
`"pending"`, with auto-approve on it is stored `"approved"`; and toggling
the setting rewrites only the `settings` table — the stored confessions
(hence every earlier confession's status) are untouched. -/
theorem C7_theorem : ∀ (st : BotState) (u : Int) (raw now content : String) (b : Bool),
    (set_auto_approve st b).confessions = st.confessions ∧
    (dictGet st.pending_confessions u = some content →
      (∀ r ∈ st.confessions, r.id ≠ st.nextConfId) →
      (receive_confession_tags st u (some raw) now).2 = .ok st.nextConfId ∧
      (is_auto_approve st = false →
        (get_confession_by_id (receive_confession_tags st u (some raw) now).1
            st.nextConfId).map ConfView.status = some "pending") ∧
      (is_auto_approve st = true →
        (get_confession_by_id (receive_confession_tags st u (some raw) now).1
            st.nextConfId).map ConfView.status = some "approved")) := by
  intro st u raw now content b
  refine ⟨rfl, ?_⟩
  intro hdraft hfresh
  obtain ⟨hok, hconfs, hpend⟩ := receive_tags_fields st u raw now content hdraft
  refine ⟨hok, ?_, ?_⟩
  · intro hauto
    unfold get_confession_by_id
    rw [hconfs, findFirst_append_singleton _ _ _ hfresh rfl]
    simp [confToView, hauto]
  · intro hauto
    unfold get_confession_by_id
    rw [hconfs, findFirst_append_singleton _ _ _ hfresh rfl]
    simp [confToView, hauto]

/-- C7 witness: finalizing user 5's draft in `stDraft` (auto-approve off by
default) stores status `"pending"`; after `set_auto_approve(true)` the same
finalization stores `"approved"`. -/
theorem C7_witness :
    (get_confession_by_id (receive_confession_tags stDraft 5 (some "tag1") "t").1 1).map
        ConfView.status = some "pending" ∧
    (get_confession_by_id
          (receive_confession_tags (set_auto_approve stDraft true) 5 (some "tag1") "t").1
          1).map ConfView.status = some "approved" :=
  ⟨((C7_theorem stDraft 5 "tag1" "t" "hello" true).2 (by decide) (by decide)).2.1 (by decide),
    ((C7_theorem (set_auto_approve stDraft true) 5 "tag1" "t" "hello" true).2
        (by decide) (by decide)).2.2 (by decide)⟩

/-- C8: the main admin is authorized in every state whatever the `admins`
table holds; `handle_add_admin` answers `false` without touching any state
when the target is the main admin or already an admin; and removing rows
from the `admins` table can never revoke the main admin, who is a
structural special case and not a row. -/
theorem C8_theorem : ∀ (st : BotState) (target rid : Int) (now : String),
    is_admin st st.mainAdmin = true ∧
    ((target = st.mainAdmin ∨ ∃ a ∈ st.admins, a.id = target) →
      handle_add_admin st st.mainAdmin target now = (st, .ok false)) ∧
    is_admin (handle_remove_admin st st.mainAdmin rid).1 st.mainAdmin = true ∧
    is_admin (remove_secondary_admin st rid) st.mainAdmin = true := by
  intro st target rid now
  refine ⟨by simp [is_admin], ?_,
    by simp [handle_remove_admin, remove_secondary_admin, is_admin],
    by simp [remove_secondary_admin, is_admin]⟩
  intro h
  by_cases ht : target = st.mainAdmin
  · simp [handle_add_admin, ht]
  · rcases h with h | h
    · exact absurd h ht
    · have hmem : (findFirst (fun a => a.id = target) st.admins).isSome = true :=
        (findFirst_isSome_iff _ _).mpr h
      simp [handle_add_admin, ht, add_secondary_admin, hmem]

/-- C8 witness: granting 9 (already a secondary admin in `stWithAdmin`)
returns `false` with no state change, and after removing 9 the main admin 7
is still authorized. -/
theorem C8_witness :
    handle_add_admin stWithAdmin 7 9 "t" = (stWithAdmin, .ok false) ∧
    is_admin (remove_secondary_admin stWithAdmin 9) 7 = true :=
  ⟨(C8_theorem stWithAdmin 9 9 "t").2.1 (by decide),
    (C8_theorem stWithAdmin 9 9 "t").2.2.2⟩

/-- C9: beginning a draft with blank content is rejected with
`ValidationError` leaving every user's flow state unchanged; non-blank
content stores the stripped draft under the submitting user (overwriting
any prior draft of that user, other users' drafts untouched); finalizing
with no stored draft fails with `NoPendingDraftError`; and every completed
finalization removes the user's draft. -/
theorem C9_theorem : ∀ (st : BotState) (u v : Int) (mtext raw : Option String)
    (now : String) (cid : Int),
    (pyStrip (mtext.getD "") = "" →
      receive_confession_text st u mtext = (st, .err .validation)) ∧
    (pyStrip (mtext.getD "") ≠ "" →
      (receive_confession_text st u mtext).2 = .ok () ∧
      dictGet (receive_confession_text st u mtext).1.pending_confessions u
        = some (pyStrip (mtext.getD "")) ∧
      (v ≠ u →
        dictGet (receive_confession_text st u mtext).1.pending_confessions v
          = dictGet st.pending_confessions v)) ∧
    (dictGet st.pending_confessions u = none →
      receive_confession_tags st u raw now = (st, .err .noPendingDraft)) ∧
    ((receive_confession_tags st u raw now).2 = .ok cid →
      dictGet (receive_confession_tags st u raw now).1.pending_confessions u = none) := by
  intro st u v mtext raw now cid
  refine ⟨?_, ?_, ?_, ?_⟩
  · intro h
    simp [receive_confession_text, h]
  · intro h
    refine ⟨by simp [receive_confession_text, h], ?_, ?_⟩
    · simp [receive_confession_text, h, dictGet_dictSet_self]
    · intro hv
      simp [receive_confession_text, h, dictGet_dictSet_other _ _ _ _ hv]
  · intro h
    simp [receive_confession_tags, h]
  · intro hok
    cases hd : dictGet st.pending_confessions u with
    | none =>
      exfalso
      unfold receive_confession_tags at hok
      rw [hd] at hok
      simp at hok
    | some content =>
      cases raw with
      | none =>
        exfalso
        unfold receive_confession_tags at hok
        rw [hd] at hok
        simp at hok
      | some t =>
        unfold receive_confession_tags
        rw [hd]
        exact dictGet_dictPop_self _ _

/-- C9 witness: blank content is rejected; `" hi "` is stored stripped as
user 5's draft; finalizing without a draft fails; finalizing `stDraft`
(which returns confession id 1) leaves user 5 with no draft. -/
theorem C9_witness :
    receive_confession_text baseState 5 (some "  ") = (baseState, .err .validation) ∧
    dictGet (receive_confession_text baseState 5 (some " hi ")).1.pending_confessions 5
      = some "hi" ∧
    receive_confession_tags baseState 5 (some "x") "t" = (baseState, .err .noPendingDraft) ∧
    dictGet (receive_confession_tags stDraft 5 (some "x") "t").1.pending_confessions 5
      = none :=
  ⟨(C9_theorem baseState 5 6 (some "  ") (some "x") "t" 1).1 (by decide),
    ((C9_theorem baseState 5 6 (some " hi ") (some "x") "t" 1).2.1 (by decide)).2.1,
    (C9_theorem baseState 5 6 (some "  ") (some "x") "t" 1).2.2.1 (by decide),
    (C9_theorem stDraft 5 6 (some "  ") (some "x") "t" 1).2.2.2 (by decide)⟩

/-- C10: tags round-trip through the comma-join encoding: a confession
created with an empty tag list, or with a tag list whose tokens are
non-empty and comma-free, reads back through `get_confession_by_id` with
exactly the created tag list. -/
theorem C10_theorem : ∀ (st : BotState) (uid : Int) (content : String)
    (ts : List String) (status now : String),
    (∀ r ∈ st.confessions, r.id ≠ st.nextConfId) →
    (ts = [] ∨ ∀ t ∈ ts, t ≠ "" ∧ ',' ∉ t.data) →
    (get_confession_by_id (create_confession st uid content ts status now).1
        (create_confession st uid content ts status now).2).map ConfView.tags
      = some ts := by
  intro st uid content ts status now hfresh hts
  rw [get_after_create st uid content ts status now hfresh]
  cases ts with
  | nil => simp [decodeTags]
  | cons t0 ts' =>
    have hne : t0 :: ts' ≠ [] := by simp
    rcases hts with h | h
    · exact absurd h hne
    · have hdec : decodeTags (joinComma (t0 :: ts')) = t0 :: ts' :=
        decodeTags_joinComma _ hne h
      simp [hdec]

/-- C10 witness: tags `["a", "b"]` created on the fresh state read back
unchanged. -/
theorem C10_witness :
    (get_confession_by_id (create_confession baseState 5 "c" ["a", "b"] "pending" "t").1
        (create_confession baseState 5 "c" ["a", "b"] "pending" "t").2).map ConfView.tags
      = some ["a", "b"] :=
  C10_theorem baseState 5 "c" ["a", "b"] "pending" "t" (by decide) (Or.inr (by decide))

end ConfessionBot
